import Mathlib

/-!
Verification of the pal-mcp command-dispatch core: a shallow embedding of
`src/pal/tools/parser.py`, `src/pal/tools/handlers.py` and
`src/pal/prompts/loader.py`, together with theorems settling the frozen
claims about the pipeline splitter, the frontmatter parser, the document
resolver / merge strategies, the prompt-chain walker and the handler-chain
dispatcher.

Modelling conventions:
* Python strings are Lean `String`s (operated on through their `List Char`
  data); Python's ASCII whitespace and word-character classes are modelled
  explicitly.
* The filesystem-backed document tiers (bundled / user / custom prompt
  directories) are modelled as association lists from path-component lists
  (file names including their `.md` extension) to file contents.
* `yaml.safe_load` is an external library; it is modelled as an arbitrary
  function `YamlFn` mapping the frontmatter text to `Option Frontmatter`
  (`none` models a raised `YAMLError`; a falsy result of `safe_load` is
  `some []`, matching `yaml.safe_load(...) or {}`).
* Functions that can raise in Python on degenerate inputs (e.g.
  `_name_to_path` on a whitespace-only name, which hits an `IndexError`)
  return `Option`/a sentinel on exactly those inputs; every such spot is
  commented.
-/

namespace Pal

/-- Python's ASCII whitespace class (`str.isspace` / `\s` on ASCII input). -/
def isPySpace (c : Char) : Bool :=
  c = ' ' || c = '\t' || c = '\n' || c = '\r' || c = '\x0b' || c = '\x0c'

/-- Python regex `\w` on ASCII input: letters, digits, underscore. -/
def isWordChar (c : Char) : Bool :=
  c.isAlphanum || c = '_'

/-- `hasPre l p` is true when `l` starts with `p` (Python `str.startswith`). -/
def hasPre : List Char → List Char → Bool
  | _, [] => true
  | [], _ :: _ => false
  | a :: as, b :: bs => a = b && hasPre as bs

/-- `hasSub l p` is true when `p` occurs as a contiguous substring of `l`
    (Python `needle in haystack` on strings). -/
def hasSub : List Char → List Char → Bool
  | [], p => hasPre [] p
  | c :: t, p => hasPre (c :: t) p || hasSub t p

/-- Python `str.strip()`: remove leading and trailing whitespace. -/
def pyStrip (s : String) : String :=
  String.mk (((s.data.dropWhile isPySpace).reverse.dropWhile isPySpace).reverse)

/-- Python `str.lower()` (ASCII case folding). -/
def pyLower (s : String) : String :=
  String.mk (s.data.map Char.toLower)

/-- Accumulator loop for `str.split()` with no separator: split on whitespace
    runs, dropping empty tokens. -/
def splitWsGo (acc : List Char) : List Char → List String
  | [] => if acc = [] then [] else [String.mk acc.reverse]
  | c :: t =>
    if isPySpace c then
      if acc = [] then splitWsGo [] t
      else String.mk acc.reverse :: splitWsGo [] t
    else splitWsGo (c :: acc) t

/-- Python `str.split()` (no argument): whitespace runs separate tokens,
    no empty tokens are produced. -/
def pySplitWs (s : String) : List String :=
  splitWsGo [] s.data

/-- Split a character list at the first occurrence of `sep`
    (Python `str.split(sep, 1)` when `sep` occurs, `none` otherwise). -/
def splitFirst (sep : List Char) : List Char → Option (List Char × List Char)
  | [] => if hasPre [] sep then some ([], []) else none
  | c :: t =>
    if hasPre (c :: t) sep then some ([], (c :: t).drop sep.length)
    else
      match splitFirst sep t with
      | some (a, b) => some (c :: a, b)
      | none => none

/-- Python `str.split("\n")`: split at every newline, keeping empty pieces. -/
def splitLinesGo (acc : List Char) : List Char → List String
  | [] => [String.mk acc.reverse]
  | '\n' :: t => String.mk acc.reverse :: splitLinesGo [] t
  | c :: t => splitLinesGo (c :: acc) t

/-- Code-point lexicographic order on character lists (Python `<=` on str). -/
def lexLe : List Char → List Char → Bool
  | [], _ => true
  | _ :: _, [] => false
  | a :: as, b :: bs => if a = b then lexLe as bs else decide (a < b)

/-- Python `<=` on strings (used to model `sorted`). -/
def strLe (a b : String) : Bool :=
  lexLe a.data b.data

/-- Insertion step of the sort modelling Python `sorted` on strings. -/
def insertStr (x : String) : List String → List String
  | [] => [x]
  | y :: ys => if strLe x y then x :: y :: ys else y :: insertStr x ys

/-- Python `sorted` on a list of strings (code-point lexicographic). -/
def sortStrs : List String → List String
  | [] => []
  | x :: xs => insertStr x (sortStrs xs)

/-- Insertion step of the sort modelling Python `sorted` on key/value pairs
    with distinct keys. -/
def insertPair (x : String × String) : List (String × String) → List (String × String)
  | [] => [x]
  | y :: ys => if strLe x.1 y.1 then x :: y :: ys else y :: insertPair x ys

/-- Python `sorted(dict.items())` for string keys (keys are distinct, so
    ordering by key alone matches tuple ordering). -/
def sortPairs : List (String × String) → List (String × String)
  | [] => []
  | x :: xs => insertPair x (sortPairs xs)

/-- Keep the first occurrence of each string (set semantics for membership;
    the result is always sorted afterwards, mirroring `sorted(set)`). -/
def dedupAux (seen : List String) : List String → List String
  | [] => []
  | x :: xs =>
    if seen.contains x then dedupAux seen xs
    else x :: dedupAux (x :: seen) xs

end Pal

namespace Pal

/-! ### Frontmatter values (`src/pal/prompts/loader.py`) -/

/-- A frontmatter value: a scalar string or a shallow mapping (the only
    shapes the consumed fields `merge_strategy` and `subcommands` take;
    the spec restricts frontmatter to flat or shallow-nested mappings). -/
inductive FmValue where
  | str (s : String)
  | map (entries : List (String × String))
  deriving DecidableEq, Repr

/-- A parsed frontmatter block: a key/value mapping as produced by
    `yaml.safe_load` on the block (keys are distinct). -/
abbrev Frontmatter := List (String × FmValue)

/-- The external `yaml.safe_load`, modelled abstractly: `none` models a
    raised `yaml.YAMLError`; a falsy (`None`) result is `some []`,
    matching the `or {}` in `parse_frontmatter`. -/
abbrev YamlFn := String → Option Frontmatter

/-- Python truthiness of a frontmatter value (`if not valid_subs`). -/
def fmTruthy : FmValue → Bool
  | .str s => s ≠ ""
  | .map es => es ≠ []

/-- Python `token in value`: key membership for a mapping, substring test
    for a scalar string. -/
def fmMem (tok : String) : FmValue → Bool
  | .str s => hasSub s.data tok.data
  | .map es => es.any fun e => e.1 = tok

/-! ### The frontmatter regex

`parse_frontmatter` matches `re.compile(r"^---\s*\n(.*?)\n---\s*\n", re.DOTALL)`
against the start of the document.  The functions below reproduce the
regex engine's backtracking order: the two `\s*` are greedy (longest
whitespace run first), the `(.*?)` group is lazy (shortest first), and the
first complete match wins. -/

/-- Length of the leading whitespace run. -/
def wsRunLen (cs : List Char) : Nat :=
  (cs.takeWhile isPySpace).length

/-- All ways to match `\s*\n` at the front of `cs`, as the suffixes left
    after the match, in the regex engine's preference order (greedy `\s*`,
    i.e. longest whitespace prefix first). -/
def wsNlCandidates (cs : List Char) : List (List Char) :=
  (List.range (wsRunLen cs + 1)).reverse.filterMap fun k =>
    match cs.drop k with
    | '\n' :: rest => some rest
    | _ => none

/-- Given the text after the opening `---\s*\n`, find the lazy group
    `(.*?)` followed by `\n---\s*\n`: try the shortest group first and,
    for the trailing `\s*\n`, the greediest completion first.  Returns the
    group text and the text after the whole match. -/
def fmTail (c1 : List Char) : Option (List Char × List Char) :=
  (List.range (c1.length + 1)).findSome? fun m =>
    match c1.drop m with
    | '\n' :: '-' :: '-' :: '-' :: rest2 =>
      match wsNlCandidates rest2 with
      | r :: _ => some (c1.take m, r)
      | [] => none
    | _ => none

/-- The anchored match of `^---\s*\n(.*?)\n---\s*\n` against `content`:
    `some (group1, after_match)` on success. -/
def fmMatch (content : List Char) : Option (List Char × List Char) :=
  match content with
  | '-' :: '-' :: '-' :: rest => (wsNlCandidates rest).findSome? fmTail
  | _ => none

/-- `parse_frontmatter` from `loader.py`: on a match, run the YAML parser
    on the block (a `YAMLError` recovers to no frontmatter with the
    original text as body); without a match, no frontmatter and the
    original text as body. -/
def parse_frontmatter (yl : YamlFn) (content : String) : Frontmatter × String :=
  match fmMatch content.data with
  | some (inner, body) =>
    match yl (String.mk inner) with
    | some fm => (fm, String.mk body)
    | none => ([], content)
  | none => ([], content)

/-! ### Merge strategies (`src/pal/prompts/loader.py`) -/

/-- The `MergeStrategy` literal type from `loader.py`. -/
inductive MergeStrategy where
  | override
  | append
  | prepend
  deriving DecidableEq, Repr

/-- `get_merge_strategy` from `loader.py`: `frontmatter.get("merge_strategy",
    "override")`, kept only if it is one of the three known strategies. -/
def get_merge_strategy (fm : Frontmatter) : MergeStrategy :=
  match fm.lookup "merge_strategy" with
  | some (.str s) =>
    if s = "override" then .override
    else if s = "append" then .append
    else if s = "prepend" then .prepend
    else .override
  | _ => .override

/-- `merge_prompts` from `loader.py`. -/
def merge_prompts (user_content bundled_content : String) : MergeStrategy → String
  | .override => user_content
  | .append => bundled_content ++ "\n\n" ++ user_content
  | .prepend => user_content ++ "\n\n" ++ bundled_content

/-! ### Document stores

Each prompt tier (bundled, user override, custom) is a directory of `.md`
files; we model a tier as an association list from the path-component list
of a file (the last component carries its `.md` extension) to the file's
text.  Directories exist implicitly as proper prefixes of keys. -/

/-- One filesystem tier. -/
abbrev FS := List (List String × String)

/-- Read a file (`Path.read_text` guarded by `Path.exists`). -/
def fsRead (fs : FS) (p : List String) : Option String :=
  fs.lookup p

/-- Write a file (`Path.write_text`), overwriting any previous content. -/
def fsWrite (fs : FS) (p : List String) (content : String) : FS :=
  (p, content) :: fs.filter fun e => e.1 != p

/-- The three prompt tiers plus the rendered custom-prompts root directory
    (`settings.custom_prompts_path`, used only in displayed file paths). -/
structure Store where
  bundled : FS
  user : FS
  custom : FS
  customRoot : String

/-- Append `.md` to the last path component: `parts[:-1]` become
    directories, the last part becomes the `.md` file name (shared by
    `_name_to_path`, `_load_bundled_by_path` and `_load_custom_by_path`). -/
def addMd : List String → List String
  | [] => []
  | [x] => [x ++ ".md"]
  | x :: y :: t => x :: addMd (y :: t)

/-- The `namespace`/`subcommand` file layout of `load_bundled_prompt` and
    `load_user_prompt`: `namespace/subcommand.md` or `namespace.md`. -/
def tierPath (ns : String) (sub : Option String) : List String :=
  match sub with
  | some s => [ns, s ++ ".md"]
  | none => [ns ++ ".md"]

/-- `load_bundled_prompt` from `loader.py` (raw file text). -/
def load_bundled_prompt (st : Store) (ns : String) (sub : Option String) : Option String :=
  fsRead st.bundled (tierPath ns sub)

/-- `load_user_prompt` from `loader.py`: body without frontmatter, plus the
    frontmatter mapping. -/
def load_user_prompt (yl : YamlFn) (st : Store) (ns : String) (sub : Option String) :
    Option String × Frontmatter :=
  match fsRead st.user (tierPath ns sub) with
  | some c => (some (parse_frontmatter yl c).2, (parse_frontmatter yl c).1)
  | none => (none, [])

/-- `load_prompt` from `loader.py`: user tier (merged with bundled by the
    user frontmatter's strategy), else bundled, else an error string. -/
def load_prompt (yl : YamlFn) (st : Store) (ns : String) (sub : Option String) : String :=
  let uc := load_user_prompt yl st ns sub
  let bc := load_bundled_prompt st ns sub
  match uc.1 with
  | some u =>
    match bc with
    | some b => merge_prompts u b (get_merge_strategy uc.2)
    | none => u
  | none =>
    match bc with
    | some b => b
    | none =>
      match sub with
      | some s => "Unknown command: " ++ ns ++ " " ++ s
      | none => "Unknown command: " ++ ns

/-- `_load_bundled_by_path` from `loader.py`.  (On `path_parts = []` the
    source raises an `IndexError`; the walker always passes a non-empty
    list, and the model reads the non-existent empty key instead.) -/
def load_bundled_by_path (st : Store) (path_parts : List String) : Option String :=
  fsRead st.bundled (addMd path_parts)

/-- `_load_custom_by_path` from `loader.py`: body without frontmatter plus
    the frontmatter mapping. -/
def load_custom_by_path (yl : YamlFn) (st : Store) (path_parts : List String) :
    Option String × Frontmatter :=
  match fsRead st.custom (addMd path_parts) with
  | some c => (some (parse_frontmatter yl c).2, (parse_frontmatter yl c).1)
  | none => (none, [])

/-- `load_merged_prompt` from `loader.py`: merge custom (frontmatter
    stripped) with bundled (raw) according to the custom frontmatter's
    `merge_strategy`; custom alone, bundled alone, or `none`. -/
def load_merged_prompt (yl : YamlFn) (st : Store) (path_parts : List String) : Option String :=
  let bundled_content := load_bundled_by_path st path_parts
  let cc := load_custom_by_path yl st path_parts
  match cc.1 with
  | some c =>
    match bundled_content with
    | some b => some (merge_prompts c b (get_merge_strategy cc.2))
    | none => some c
  | none => bundled_content

/-! ### Custom-prompt naming and persistence (`loader.py`) -/

/-- `_name_to_path` from `loader.py`, as a key into the custom tier:
    `name.split()` with all but the last token as directories and the last
    token as the `.md` file.  The empty result (whitespace-only name) is
    the case where the source raises an `IndexError` on `parts[-1]`. -/
def mdParts (name : String) : List String :=
  addMd (pySplitWs name)

/-- `_path_to_name` from `loader.py`: drop the `.md` suffix of the last
    component and join the components with spaces. -/
def removeMdSuffix (f : String) : Bool × String :=
  if hasPre f.data.reverse ['d', 'm', '.'] then
    (true, String.mk (f.data.take (f.data.length - 3)))
  else (false, f)

/-- `f` ends with `.md` (`Path.suffix == ".md"` for non-hidden names). -/
def endsWithMd (f : String) : Bool :=
  (removeMdSuffix f).1

/-- The stem of a `.md` file name. -/
def dropMd (f : String) : String :=
  (removeMdSuffix f).2

/-- `_path_to_name` from `loader.py`. -/
def pathToName (key : List String) : String :=
  String.intercalate " "
    (match key.reverse with
     | [] => []
     | last :: front => (front.reverse) ++ [dropMd last])

/-- `content.replace("\\n", "\n")`: expand literal backslash-n escapes,
    scanning left to right without overlap. -/
def replaceBsN : List Char → List Char
  | '\\' :: 'n' :: rest => '\n' :: replaceBsN rest
  | c :: rest => c :: replaceBsN rest
  | [] => []

/-- The newline-escape expansion applied by `save_custom_prompt`. -/
def expand_newline_escapes (content : String) : String :=
  String.mk (replaceBsN content.data)

/-- `save_custom_prompt` from `loader.py`, acting on the custom tier.
    Returns the new tier and the user-visible message; `none` models the
    `IndexError` the source raises for a whitespace-only (but non-empty)
    name, which no caller can reach (handlers strip names first). -/
def save_custom_prompt (fs : FS) (name content : String) : Option (FS × String) :=
  if name = "" then some (fs, "Error: Prompt name is required")
  else
    let expanded := expand_newline_escapes content
    match mdParts name with
    | [] => none
    | p => some (fsWrite fs p expanded,
        "Prompt '" ++ name ++ "' saved. Use it with: $$" ++ name ++ " <input>")

/-- `load_custom_prompt` from `loader.py`.  (For a whitespace-only name the
    source raises; the model reads the non-existent empty key instead,
    which no handler-reachable input exercises.) -/
def load_custom_prompt (fs : FS) (name : String) : Option String :=
  match mdParts name with
  | [] => none
  | p => fsRead fs p

/-- `get_prompt_path` from `loader.py`, rendered as the path string shown
    in handler messages. -/
def get_prompt_path (st : Store) (name : String) : String :=
  st.customRoot ++ "/" ++ String.intercalate "/" (mdParts name)

/-- Every path component is non-hidden (glob patterns such as `*.md` and
    the implicit `**` of `rglob` do not match names starting with a dot). -/
def visiblePath (key : List String) : Bool :=
  key.all fun comp => !(hasPre comp.data ['.'])

/-- `list_custom_prompts` from `loader.py`: names of all (non-hidden)
    `.md` files anywhere under the custom tier, sorted. -/
def list_custom_prompts (st : Store) : List String :=
  sortStrs (st.custom.filterMap fun e =>
    if visiblePath e.1 &&
        (match e.1.getLast? with
         | some f => endsWithMd f
         | none => false) then
      some (pathToName e.1)
    else none)

/-- The stems of the (non-hidden) `.md` files directly inside directory
    `ns` of a tier (`(tier_path / ns).glob("*.md")`). -/
def dirStems (fs : FS) (ns : String) : List String :=
  fs.filterMap fun e =>
    match e.1 with
    | [a, f] =>
      if a == ns && endsWithMd f && !(hasPre f.data ['.']) then some (dropMd f)
      else none
    | _ => none

/-- `list_subcommands` from `loader.py`: the sorted union of the direct
    `.md` stems under `ns` in the bundled, user and custom tiers. -/
def list_subcommands (st : Store) (ns : String) : List String :=
  sortStrs (dedupAux []
    (dirStems st.bundled ns ++ dirStems st.user ns ++ dirStems st.custom ns))

/-! ### `src/pal/tools/parser.py` -/

/-- `ParsedCommand` from `parser.py`: the lowercased first token and the raw
    remainder.  (`namespace` is a Lean keyword, hence the field name `ns`.) -/
structure ParsedCommand where
  ns : String
  rest : String
  deriving DecidableEq, Repr

/-- `CONTENT_CONSUMING_COMMANDS` from `parser.py`. -/
def CONTENT_CONSUMING_COMMANDS : List String :=
  ["notes add", "notes save"]

/-- `lower.startswith(prefix)` followed by end-of-string or whitespace:
    the token-boundary check inside `_is_content_consuming_command`. -/
def startsWithBoundary : List Char → List Char → Bool
  | l, [] =>
    match l with
    | [] => true
    | c :: _ => isPySpace c
  | [], _ :: _ => false
  | a :: as, b :: bs => a = b && startsWithBoundary as bs

/-- `_is_content_consuming_command` from `parser.py`. -/
def is_content_consuming (command_string : String) : Bool :=
  CONTENT_CONSUMING_COMMANDS.any fun p =>
    startsWithBoundary (pyLower command_string).data p.data

/-- The splitting loop of `re.split(r"(?<=\w) \| (?=\w)", s)`: a split point
    is an occurrence of the three characters space, pipe, space whose
    immediate left neighbour is a word character and whose immediate right
    neighbour is a word character.  The scan is left to right and the
    lookahead character is not consumed, exactly like the regex engine. -/
def rsplit (prevWord : Bool) (acc : List Char) : List Char → List (List Char)
  | [] => [acc.reverse]
  | ' ' :: '|' :: ' ' :: d :: rest2 =>
    if prevWord && isWordChar d then acc.reverse :: rsplit false [] (d :: rest2)
    else rsplit false (' ' :: acc) ('|' :: ' ' :: d :: rest2)
  | c :: rest => rsplit (isWordChar c) (c :: acc) rest

/-- `parse_pipeline` from `parser.py`. -/
def parse_pipeline (command_string : String) : List String :=
  if command_string = "" then []
  else
    let stripped := pyStrip command_string
    if is_content_consuming stripped then
      if stripped = "" then [] else [stripped]
    else if stripped.data.head? = some '|' || stripped.data.getLast? = some '|' then
      if stripped = "" then [] else [stripped]
    else
      ((rsplit false [] command_string.data).map fun s =>
        pyStrip (String.mk s)).filter fun s => s ≠ ""

/-- `parse_command` from `parser.py`: lowercased first whitespace-delimited
    token, remainder with case and internal layout preserved.  (For a
    non-empty, all-whitespace input the source raises an `IndexError` on
    `parts[0]`; the model returns the empty command there.) -/
def parse_command (raw_command : String) : ParsedCommand :=
  if raw_command = "" then ⟨"", ""⟩
  else
    let l := raw_command.data.dropWhile isPySpace
    match l with
    | [] => ⟨"", ""⟩
    | _ :: _ =>
      let tok := l.takeWhile fun c => !isPySpace c
      let rest := (l.dropWhile fun c => !isPySpace c).dropWhile isPySpace
      ⟨pyLower (String.mk tok), String.mk rest⟩

end Pal

namespace Pal

/-! ### Descriptions and built-in prompt listing (`loader.py`) -/

/-- The `_INTERNAL_PROMPTS` set from `loader.py`. -/
def INTERNAL_PROMPTS : List String :=
  ["root", "help", "curl"]

/-- The per-line processing of `_extract_description`: strip markdown
    header hashes, cut at the first sentence, truncate to 80 characters. -/
def descLine (line0 : String) : String :=
  let line1 :=
    if hasPre line0.data ['#'] then
      pyStrip (String.mk (line0.data.dropWhile fun c => c = '#'))
    else line0
  let line2 :=
    match splitFirst ('.' :: ' ' :: []) line1.data with
    | some (a, _) => String.mk a ++ "."
    | none => line1
  if line2.length > 80 then String.mk (line2.data.take 77) ++ "..." else line2

/-- The first-non-empty-line search of `_extract_description`. -/
def firstDescLine : List String → String
  | [] => "No description"
  | l :: ls =>
    let line := pyStrip l
    if line = "" then firstDescLine ls else descLine line

/-- `_extract_description` from `loader.py`. -/
def extract_description (yl : YamlFn) (content : String) : String :=
  firstDescLine (splitLinesGo [] (pyStrip (parse_frontmatter yl content).2).data)

/-- The sorted, deduplicated top-level entry names of a tier
    (`sorted(path.iterdir())`): file names are length-1 keys, directory
    names are first components of longer keys. -/
def topNames (fs : FS) : List String :=
  sortStrs (dedupAux [] (fs.filterMap fun e => e.1.head?))

/-- `n` is a directory of the tier (some key descends through it). -/
def isDirIn (fs : FS) (n : String) : Bool :=
  fs.any fun e => e.1.head? == some n && decide (2 ≤ e.1.length)

/-- `n` is a top-level file of the tier. -/
def isFileIn (fs : FS) (n : String) : Bool :=
  fs.any fun e => e.1 == [n]

/-- `list_builtin_prompts` from `loader.py`: walk the sorted top-level
    entries of the bundled tier; a non-hidden, non-internal `.md` file
    without a sibling directory yields a flat command, a non-hidden,
    non-internal directory with `.md` children yields a namespace whose
    description comes from `name.md` when present. -/
def list_builtin_prompts (yl : YamlFn) (st : Store) : List (String × String × List String) :=
  (topNames st.bundled).filterMap fun n =>
    if hasPre n.data ['.'] then none
    else if isDirIn st.bundled n then
      if INTERNAL_PROMPTS.contains n then none
      else
        let subs := sortStrs (dirStems st.bundled n)
        if subs = [] then none
        else
          let desc :=
            match fsRead st.bundled [n ++ ".md"] with
            | some c => extract_description yl c
            | none => "Commands: " ++ String.intercalate ", " subs
          some (n, desc, subs)
    else if isFileIn st.bundled n && endsWithMd n then
      let stem := dropMd n
      if INTERNAL_PROMPTS.contains stem then none
      else if isDirIn st.bundled stem then none
      else some (stem, extract_description yl ((fsRead st.bundled [n]).getD ""), [])
    else none

/-! ### `src/pal/tools/handlers.py` -/

/-- `CommandResult` from `types.py`. -/
structure CommandResult where
  output : String
  display : Option String
  handled : Bool
  deriving DecidableEq, Repr

/-- The `BUILTIN_COMMANDS` dict from `handlers.py` (insertion order). -/
def BUILTIN_COMMANDS : List (String × String) :=
  [("echo", "Echo text with variable substitution"),
   ("prompt", "List, view, or create custom prompts"),
   ("help", "Show all available commands")]

/-- `handle_echo` from `handlers.py` (`command.rest or ""`). -/
def handle_echo (cmd : ParsedCommand) : Option CommandResult :=
  if cmd.ns ≠ "echo" then none
  else some ⟨(if cmd.rest = "" then "" else cmd.rest), none, true⟩

/-- `handle_prompt` from `handlers.py`: parse `rest` at the first
    `" -- "` into a name and optional content; list, view or save. -/
def handle_prompt (st : Store) (cmd : ParsedCommand) : Option CommandResult :=
  if cmd.ns ≠ "prompt" then none
  else
    let nameContent : Option String × Option String :=
      if cmd.rest = "" then (none, none)
      else
        match splitFirst (" -- ".data) cmd.rest.data with
        | some (a, b) =>
          (if pyStrip (String.mk a) = "" then none else some (pyStrip (String.mk a)),
           some (String.mk b))
        | none =>
          (if pyStrip cmd.rest = "" then none else some (pyStrip cmd.rest), none)
    match nameContent.1 with
    | none =>
      let prompts := list_custom_prompts st
      let content :=
        if prompts = [] then "No custom prompts defined yet."
        else "Custom prompts:\n\n" ++
          String.intercalate "\n" (prompts.map fun p => "  - " ++ p)
      some ⟨"## $$prompt\n\n" ++ content, none, true⟩
    | some name =>
      if (nameContent.2.getD "") = "" then
        -- `if not prompt_content:` — view an existing prompt or report it missing
        let path := get_prompt_path st name
        let existing := (load_custom_prompt st.custom name).getD ""
        if existing ≠ "" then
          some ⟨"## $$prompt " ++ name ++ "\n\nFile: `" ++ path ++
            "`\n\nCurrent definition:\n\n```\n" ++ existing ++
            "\n```\n\nIMPORTANT: Display the FULL content above to the user, do not summarize.",
            none, true⟩
        else
          some ⟨"## $$prompt " ++ name ++
            "\n\nError: Prompt not found.\n\nTo create it:\n$$prompt " ++ name ++
            " -- Your instruction here\n\nOr create file: `" ++ path ++ "`", none, true⟩
      else
        match save_custom_prompt st.custom name (nameContent.2.getD "") with
        | some (_, msg) => some ⟨"## $$prompt " ++ name ++ "\n\n" ++ msg, none, true⟩
        | none => none  -- unreachable: `name` is stripped and non-empty

/-- `handle_help_command` from `handlers.py` (the global `$$help` listing). -/
def handle_help_command (yl : YamlFn) (st : Store) (cmd : ParsedCommand) : Option CommandResult :=
  if cmd.ns ≠ "help" then none
  else
    let builtinLines := (sortPairs BUILTIN_COMMANDS).map fun e =>
      "- `" ++ e.1 ++ "` - " ++ e.2
    let builtinPromptLines := (list_builtin_prompts yl st).map fun e =>
      "- `" ++ e.1 ++ "` - " ++ e.2.1
    let customs := list_custom_prompts st
    let customLines :=
      if customs = [] then
        ["No custom prompts defined yet.", "",
         "Create one with: `$$prompt <name> <instruction>`"]
      else customs.map fun p => "- `" ++ p ++ "`"
    let lines :=
      ["## $$help", "", "Use `$$` to run commands (e.g., `$$notes list`).",
       "In pipes, only the first command needs `$$`.", "",
       "### Built-in Commands", ""] ++ builtinLines ++ [""] ++
      ["### Built-in Prompts", ""] ++ builtinPromptLines ++ [""] ++
      ["### Custom Prompts", ""] ++ customLines
    some ⟨String.intercalate "\n" lines, none, true⟩

/-- The help-indicator test of `handle_help`: the first whitespace token of
    the stripped rest is `help`, or the stripped rest starts with `--help`. -/
def is_help_request (rest0 : String) : Bool :=
  let rest := pyStrip rest0
  let first_word := if rest = "" then "" else (pySplitWs rest).headD ""
  first_word == "help" || hasPre rest.data ("--help".data)

/-- The body text of the namespaced help: the merged subcommand list or the
    no-subprompts message. -/
def namespaced_help_content (st : Store) (ns : String) : String :=
  let subs := list_subcommands st ns
  if subs = [] then "No subprompts available for '" ++ ns ++ "'."
  else "Available prompts:\n\n" ++
    String.intercalate "\n" (subs.map fun sc => "  - " ++ ns ++ " " ++ sc)

/-- `handle_help` from `handlers.py` (namespaced `$$ns help` / `$$ns --help`). -/
def handle_help (st : Store) (cmd : ParsedCommand) : Option CommandResult :=
  if is_help_request cmd.rest then
    some ⟨"## $$" ++ cmd.ns ++ " --help\n\n" ++ namespaced_help_content st cmd.ns,
      none, true⟩
  else none

/-- `handle_custom_prompt` from `handlers.py` (defined in the source but
    not registered in `COMMAND_HANDLERS`). -/
def handle_custom_prompt (st : Store) (cmd : ParsedCommand) : Option CommandResult :=
  let cp := (load_custom_prompt st.custom cmd.ns).getD ""
  if cp = "" then none
  else
    let base := "**EXECUTE THE FOLLOWING INSTRUCTION:**\n\n" ++ cp ++ "\n\n"
    let content :=
      if cmd.rest = "" then base
      else base ++ "---\n\n**INPUT:**\n\n" ++ cmd.rest ++
        "\n\n---\n\n**ACTION REQUIRED:** Process the input according to the instruction above and output the result."
    some ⟨content, none, true⟩

/-! ### The prompt-chain walker (`load_prompt_chain`) -/

/-- `"/".join(path_parts)`. -/
def joinPath (parts : List String) : String :=
  String.intercalate "/" parts

/-- The loop of `load_prompt_chain`: resolve `path_parts + [token]`; stop on
    a failed resolution; after a successful one, consult the resolved
    content's frontmatter — a declared `subcommands` value only lets the
    walk continue when a next token exists, the value is truthy and the
    token is a member; otherwise walk greedily. -/
def chainLoop (yl : YamlFn) (st : Store) :
    List String → List String → List (String × String) × List String
  | _, [] => ([], [])
  | path_parts, token :: rest =>
    match load_merged_prompt yl st (path_parts ++ [token]) with
    | none => ([], token :: rest)
    | some content =>
      let entry := (joinPath (path_parts ++ [token]), content)
      match ((parse_frontmatter yl content).1).lookup "subcommands" with
      | some subs =>
        match rest with
        | [] => ([entry], [])
        | next :: _ =>
          if !fmTruthy subs || !fmMem next subs then ([entry], rest)
          else
            let r := chainLoop yl st (path_parts ++ [token]) rest
            (entry :: r.1, r.2)
      | none =>
        let r := chainLoop yl st (path_parts ++ [token]) rest
        (entry :: r.1, r.2)

/-- `load_prompt_chain` from `handlers.py`: the chain of resolved
    `(path, content)` pairs and the space-joined leftover tokens. -/
def load_prompt_chain (yl : YamlFn) (st : Store) (tokens : List String) :
    List (String × String) × String :=
  let r := chainLoop yl st [] tokens
  (r.1, String.intercalate " " r.2)

/-! ### The standard-prompt fallback and the dispatcher -/

/-- The error message `handle_standard_prompt` produces when the walker
    resolves nothing at all. -/
def undefined_command_msg (ns : String) : String :=
  "## $$" ++ ns ++ "\n\n**Error:** The `$$" ++ ns ++
  "` command isn't defined.\n\nTo create it:\n```\n$$prompt " ++ ns ++
  " Your instruction here\n```"

/-- Label the chain entries: the first is `# Command:`, the rest
    `# Subcommand:`. -/
def labelChain : List (String × String) → List String
  | [] => []
  | (p, c) :: t =>
    ("# Command: " ++ p ++ "\n\n" ++ c) ::
      t.map fun e => "# Subcommand: " ++ e.1 ++ "\n\n" ++ e.2

/-- `handle_standard_prompt` from `handlers.py`: protocol document, the
    walker's chain, and the leftover user input, joined with the fixed
    separator — or the undefined-command error when the chain is empty. -/
def handle_standard_prompt (yl : YamlFn) (st : Store) (cmd : ParsedCommand) : CommandResult :=
  let root_content := load_prompt yl st "root" none
  let protocol_parts : List String :=
    if hasPre root_content.data ("Unknown command".data) then []
    else ["# PAL Protocol\n\n" ++ root_content]
  let tokens := cmd.ns :: (if cmd.rest = "" then [] else pySplitWs cmd.rest)
  let pc := load_prompt_chain yl st tokens
  if pc.1 = [] then ⟨undefined_command_msg cmd.ns, none, true⟩
  else
    let parts := protocol_parts ++ labelChain pc.1 ++
      (if pc.2 = "" then [] else ["# User Input\n\n" ++ pc.2])
    let header := "## $$" ++ cmd.ns ++ (if cmd.rest = "" then "" else " " ++ cmd.rest)
    ⟨header ++ "\n\n" ++ String.intercalate "\n\n---\n\n" parts, none, true⟩

/-- The display/quiet-mode formatting of `execute_command`. -/
def formatResult (r : CommandResult) : String :=
  match r.display with
  | some d => d ++ "\n\n<context>\n" ++ r.output ++ "\n</context>"
  | none => r.output

/-- `execute_command` from `handlers.py`: try the ordered `COMMAND_HANDLERS`
    (`handle_echo`, `handle_prompt`, `handle_help_command`, `handle_help`),
    first non-`none` result wins, otherwise fall back to
    `handle_standard_prompt`.  (The handlers here are synchronous; the
    `asyncio.iscoroutine` await in the source is a no-op for them.) -/
def execute_command (yl : YamlFn) (st : Store) (cmd : ParsedCommand) : String :=
  match handle_echo cmd with
  | some r => formatResult r
  | none =>
    match handle_prompt st cmd with
    | some r => formatResult r
    | none =>
      match handle_help_command yl st cmd with
      | some r => formatResult r
      | none =>
        match handle_help st cmd with
        | some r => formatResult r
        | none => (handle_standard_prompt yl st cmd).output

/-! ### Concrete fixtures used by the witness theorems -/

/-- A YAML parser that yields an empty mapping for every block. -/
def ylEmpty : YamlFn := fun _ => some []

/-- The empty document store. -/
def stEmpty : Store := ⟨[], [], [], "/prompts/custom"⟩

/-- A YAML parser that parses exactly the `merge_strategy: append` block. -/
def ylMergeW : YamlFn := fun s =>
  if s = "merge_strategy: append" then some [("merge_strategy", .str "append")]
  else some []

/-- A store with a bundled `git.md` and a custom `git.md` whose frontmatter
    selects the `append` strategy. -/
def stMergeW : Store :=
  ⟨[(["git.md"], "BUNDLED")], [],
   [(["git.md"], "---\nmerge_strategy: append\n---\nCUSTOM")], "/prompts/custom"⟩

/-- A store in which only the document `notes` resolves. -/
def stWalkW : Store := ⟨[(["notes.md"], "NOTES")], [], [], "/prompts/custom"⟩

/-- A YAML parser that parses exactly the `subcommands` block of `stSubsW`. -/
def ylSubsW : YamlFn := fun s =>
  if s = "subcommands:\n  add: x" then some [("subcommands", .map [("add", "x")])]
  else some []

/-- A store whose bundled `notes.md` declares the `subcommands` mapping
    `{add}` and which also bundles `notes/add.md`. -/
def stSubsW : Store :=
  ⟨[(["notes.md"], "---\nsubcommands:\n  add: x\n---\nBody"),
    (["notes", "add.md"], "ADD")], [], [], "/prompts/custom"⟩

end Pal

namespace Pal

/-! ## Claim theorems -/

/-- Joining a one-element path needs no separator. -/
theorem joinPath_singleton (x : String) : joinPath [x] = x := rfl

/-- C1 (counterexample): the input `"a  |  b  |  c"` is non-empty, is not
    content-consuming and neither starts nor ends (trimmed) with `|`, yet
    `parse_pipeline` leaves it as a single segment instead of splitting it
    into `["a","b","c"]` — the splitter is sensitive to the amount of
    whitespace around each pipe. -/
theorem pipeline_extra_whitespace_counterexample :
    ("a  |  b  |  c" : String) ≠ "" ∧
    is_content_consuming (pyStrip "a  |  b  |  c") = false ∧
    (pyStrip "a  |  b  |  c").data.head? ≠ some '|' ∧
    (pyStrip "a  |  b  |  c").data.getLast? ≠ some '|' ∧
    parse_pipeline "a  |  b  |  c" = ["a  |  b  |  c"] ∧
    parse_pipeline "a  |  b  |  c" ≠ ["a", "b", "c"] := by
  decide

/-- C1 (amended): the splitter splits only at the exact delimiter
    `" | "` — a single space on each side of the pipe — whose immediate
    neighbours are word characters.  `"a | b | c"` yields `["a","b","c"]`,
    unchanged by whitespace surrounding the whole input, but extra
    whitespace directly around a pipe suppresses that split point. -/
theorem pipeline_single_space_split :
    parse_pipeline "a | b | c" = ["a", "b", "c"] ∧
    parse_pipeline "  a | b | c  " = ["a", "b", "c"] ∧
    parse_pipeline "git commit | review" = ["git commit", "review"] ∧
    parse_pipeline "a  |  b  |  c" = ["a  |  b  |  c"] := by
  decide

/-- C6: any input whose trimmed form matches a content-consuming command
    prefix at a token boundary is returned by the pipeline splitter as a
    single segment equal to the trimmed input — no `|` inside it is ever
    treated as a separator, because this check precedes the generic
    splitting rule. -/
theorem content_consuming_no_split (s : String)
    (h : is_content_consuming (pyStrip s) = true) :
    parse_pipeline s = [pyStrip s] := by
  have hs : s ≠ "" := by
    intro e; subst e; revert h; decide
  have hstr : pyStrip s ≠ "" := by
    intro e; rw [e] at h; revert h; decide
  unfold parse_pipeline
  simp [hs, h, hstr]

/-- C6 (witness): `"notes add | has | pipes"` is content-consuming and
    comes back as one literal segment. -/
theorem content_consuming_no_split_witness :
    is_content_consuming (pyStrip "notes add | has | pipes") = true ∧
    parse_pipeline "notes add | has | pipes" = [pyStrip "notes add | has | pipes"] :=
  ⟨by decide, content_consuming_no_split "notes add | has | pipes" (by decide)⟩

/-- C7: for every input, the frontmatter parser either returns the parsed
    mapping together with exactly the body after the closing delimiter,
    or — when no leading delimited block matches, or when the YAML region
    fails to parse — returns the empty mapping with the original input
    unchanged as the body.  There is no partially recovered body (and, the
    model being total, no exception escapes). -/
theorem frontmatter_no_partial_recovery (yl : YamlFn) (content : String) :
    (fmMatch content.data = none → parse_frontmatter yl content = ([], content)) ∧
    (∀ inner body, fmMatch content.data = some (inner, body) →
      yl (String.mk inner) = none → parse_frontmatter yl content = ([], content)) ∧
    (∀ inner body fm, fmMatch content.data = some (inner, body) →
      yl (String.mk inner) = some fm →
      parse_frontmatter yl content = (fm, String.mk body)) := by
  refine ⟨fun h => ?_, fun inner body h1 h2 => ?_, fun inner body fm h1 h2 => ?_⟩
  · simp [parse_frontmatter, h]
  · simp [parse_frontmatter, h1, h2]
  · simp [parse_frontmatter, h1, h2]

/-- C7 (witness): a document without a delimiter block is returned whole,
    and a well-formed block is stripped down to the body after the closing
    delimiter. -/
theorem frontmatter_no_partial_recovery_witness :
    fmMatch ("hello world".data) = none ∧
    parse_frontmatter ylEmpty "hello world" = ([], "hello world") ∧
    fmMatch ("---\ntitle: x\n---\nBody".data) = some ("title: x".data, "Body".data) ∧
    parse_frontmatter ylEmpty "---\ntitle: x\n---\nBody" = ([], "Body") := by
  refine ⟨by decide,
    (frontmatter_no_partial_recovery ylEmpty "hello world").1 (by decide),
    by decide, ?_⟩
  exact (frontmatter_no_partial_recovery ylEmpty "---\ntitle: x\n---\nBody").2.2
    ("title: x".data) ("Body".data) [] (by decide) rfl

/-- C3: when both the bundled tier (body `B`) and the custom tier (body
    `W` after frontmatter stripping, frontmatter `fm`) hold content at a
    path, resolution returns `B ++ "\n\n" ++ W` under the `append`
    strategy, `W ++ "\n\n" ++ B` under `prepend`, and exactly `W` when
    `merge_strategy` is `override`, absent, or any unrecognized value. -/
theorem merge_strategy_law (yl : YamlFn) (st : Store) (path : List String)
    (B W : String) (fm : Frontmatter)
    (hB : load_bundled_by_path st path = some B)
    (hW : load_custom_by_path yl st path = (some W, fm)) :
    (fm.lookup "merge_strategy" = some (.str "append") →
      load_merged_prompt yl st path = some (B ++ "\n\n" ++ W)) ∧
    (fm.lookup "merge_strategy" = some (.str "prepend") →
      load_merged_prompt yl st path = some (W ++ "\n\n" ++ B)) ∧
    ((∀ v, fm.lookup "merge_strategy" = some v →
        v ≠ FmValue.str "append" ∧ v ≠ FmValue.str "prepend") →
      load_merged_prompt yl st path = some W) := by
  refine ⟨fun h => ?_, fun h => ?_, fun h => ?_⟩
  · simp [load_merged_prompt, hB, hW, get_merge_strategy, h, merge_prompts]
  · simp [load_merged_prompt, hB, hW, get_merge_strategy, h, merge_prompts]
  · rcases hlk : fm.lookup "merge_strategy" with _ | v
    · simp [load_merged_prompt, hB, hW, get_merge_strategy, hlk, merge_prompts]
    · rcases v with s | es
      · have hv := h (FmValue.str s) hlk
        have ha : s ≠ "append" := fun e => hv.1 (by rw [e])
        have hp : s ≠ "prepend" := fun e => hv.2 (by rw [e])
        by_cases ho : s = "override" <;>
          simp [load_merged_prompt, hB, hW, get_merge_strategy, hlk, ha, hp, ho,
            merge_prompts]
      · simp [load_merged_prompt, hB, hW, get_merge_strategy, hlk, merge_prompts]

/-- C3 (witness): with bundled body `BUNDLED` and a custom document whose
    frontmatter selects `append` and whose body is `CUSTOM`, resolution
    yields the appended combination. -/
theorem merge_strategy_law_witness :
    load_bundled_by_path stMergeW ["git"] = some "BUNDLED" ∧
    load_custom_by_path ylMergeW stMergeW ["git"] =
      (some "CUSTOM", [("merge_strategy", .str "append")]) ∧
    load_merged_prompt ylMergeW stMergeW ["git"] = some ("BUNDLED" ++ "\n\n" ++ "CUSTOM") :=
  ⟨by decide, by decide,
    (merge_strategy_law ylMergeW stMergeW ["git"] "BUNDLED" "CUSTOM"
      [("merge_strategy", .str "append")] (by decide) (by decide)).1 (by decide)⟩

/-- C4: whenever resolving the path extended by the next unconsumed token
    fails, the walker stops — it adds no further chain entries and the
    leftover is exactly the unconsumed tokens including the failed one;
    in particular, on `["notes","add","hello","world"]` with only `notes`
    resolving, the chain is the single `notes` entry and the leftover is
    `"add hello world"`. -/
theorem walker_stops_on_failed_resolution (yl : YamlFn) (st : Store) (c : String)
    (h1 : load_merged_prompt yl st ["notes"] = some c)
    (h2 : load_merged_prompt yl st ["notes", "add"] = none) :
    (∀ pp tok rest, load_merged_prompt yl st (pp ++ [tok]) = none →
      chainLoop yl st pp (tok :: rest) = ([], tok :: rest)) ∧
    load_prompt_chain yl st ["notes", "add", "hello", "world"] =
      ([("notes", c)], "add hello world") := by
  constructor
  · intro pp tok rest h
    simp [chainLoop, h]
  · have step2 : chainLoop yl st ["notes"] ["add", "hello", "world"] =
        ([], ["add", "hello", "world"]) := by
      simp [chainLoop, h2]
    have step1 : chainLoop yl st [] ["notes", "add", "hello", "world"] =
        ([("notes", c)], ["add", "hello", "world"]) := by
      rw [chainLoop]
      simp only [List.nil_append, h1]
      rcases hfm : ((parse_frontmatter yl c).1).lookup "subcommands" with _ | subs
      · simp [hfm, step2, joinPath_singleton]
      · simp only [hfm]
        by_cases hb : (!fmTruthy subs || !fmMem "add" subs) = true
        · simp [hb, joinPath_singleton]
        · simp [hb, step2, joinPath_singleton]
    simp [load_prompt_chain, step1]
    decide

/-- C4 (witness): in a store bundling only `notes.md`, the walk over
    `["notes","add","hello","world"]` keeps one entry and leaves
    `"add hello world"`. -/
theorem walker_stops_on_failed_resolution_witness :
    load_merged_prompt ylEmpty stWalkW ["notes"] = some "NOTES" ∧
    load_merged_prompt ylEmpty stWalkW ["notes", "add"] = none ∧
    load_prompt_chain ylEmpty stWalkW ["notes", "add", "hello", "world"] =
      ([("notes", "NOTES")], "add hello world") :=
  ⟨by decide, by decide,
    (walker_stops_on_failed_resolution ylEmpty stWalkW "NOTES" (by decide) (by decide)).2⟩

/-- C5: at a resolved document whose frontmatter declares `subcommands`,
    the walker continues past it only when a next token exists, the
    declared value is truthy and the token is a member; with no next
    token, a non-member next token, or a falsy (in particular empty)
    mapping it stops there and the remaining tokens become the leftover. -/
theorem walker_subcommands_gate (yl : YamlFn) (st : Store) (pp : List String)
    (tok : String) (rest : List String) (c : String) (subs : FmValue)
    (hc : load_merged_prompt yl st (pp ++ [tok]) = some c)
    (hs : ((parse_frontmatter yl c).1).lookup "subcommands" = some subs) :
    (rest = [] → chainLoop yl st pp (tok :: rest) = ([(joinPath (pp ++ [tok]), c)], [])) ∧
    (∀ next rest2, rest = next :: rest2 →
      (fmTruthy subs = false ∨ fmMem next subs = false) →
      chainLoop yl st pp (tok :: rest) = ([(joinPath (pp ++ [tok]), c)], rest)) ∧
    (∀ next rest2, rest = next :: rest2 → fmTruthy subs = true → fmMem next subs = true →
      chainLoop yl st pp (tok :: rest) =
        ((joinPath (pp ++ [tok]), c) :: (chainLoop yl st (pp ++ [tok]) rest).1,
         (chainLoop yl st (pp ++ [tok]) rest).2)) ∧
    (subs = FmValue.map [] → chainLoop yl st pp (tok :: rest) =
      ([(joinPath (pp ++ [tok]), c)], rest)) := by
  refine ⟨fun h => ?_, fun next rest2 h hcond => ?_, fun next rest2 h ht hm => ?_,
    fun h => ?_⟩
  · subst h; simp [chainLoop, hc, hs]
  · subst h
    rcases hcond with h' | h' <;> simp [chainLoop, hc, hs, h']
  · subst h; simp [chainLoop, hc, hs, ht, hm]
  · subst h
    cases rest with
    | nil => simp [chainLoop, hc, hs]
    | cons next rest2 => simp [chainLoop, hc, hs, fmTruthy]

/-- C5 (witness): `notes` declares the subcommand mapping `{add}`; walking
    `["notes","del"]` stops at `notes` with leftover token `del`. -/
theorem walker_subcommands_gate_witness :
    ((parse_frontmatter ylSubsW "---\nsubcommands:\n  add: x\n---\nBody").1).lookup
      "subcommands" = some (.map [("add", "x")]) ∧
    chainLoop ylSubsW stSubsW [] ["notes", "del"] =
      ([("notes", "---\nsubcommands:\n  add: x\n---\nBody")], ["del"]) :=
  ⟨by decide,
    (walker_subcommands_gate ylSubsW stSubsW [] "notes" ["del"]
      "---\nsubcommands:\n  add: x\n---\nBody" (.map [("add", "x")])
      (by decide) (by decide)).2.1 "del" [] rfl (Or.inr (by decide))⟩

/-- C8: saving a custom document under a multi-word name writes the
    escape-expanded content at the nested path given by the name's
    whitespace split (directories plus a final `.md` file), and loading by
    the same name returns exactly that content; `"foo bar baz"` maps to
    `foo/bar/baz.md`. -/
theorem custom_prompt_round_trip (fs : FS) (name content : String)
    (h : pySplitWs name ≠ []) :
    save_custom_prompt fs name content =
      some (fsWrite fs (mdParts name) (expand_newline_escapes content),
        "Prompt '" ++ name ++ "' saved. Use it with: $$" ++ name ++ " <input>") ∧
    load_custom_prompt (fsWrite fs (mdParts name) (expand_newline_escapes content)) name =
      some (expand_newline_escapes content) ∧
    mdParts "foo bar baz" = ["foo", "bar", "baz.md"] := by
  have hne : name ≠ "" := by
    intro e; rw [e] at h; exact h (by decide)
  have hmd : ∃ a t, mdParts name = a :: t := by
    unfold mdParts
    rcases hp : pySplitWs name with _ | ⟨a, t⟩
    · exact absurd hp h
    · cases t with
      | nil => exact ⟨a ++ ".md", [], rfl⟩
      | cons b t2 => exact ⟨a, addMd (b :: t2), rfl⟩
  rcases hmd with ⟨a, t, hq⟩
  refine ⟨?_, ?_, by decide⟩
  · simp [save_custom_prompt, hne, hq]
  · simp [load_custom_prompt, hq, fsRead, fsWrite, List.lookup]

/-- C8 (witness): the round trip for the name `"foo bar baz"`, including
    the expansion of a literal `\n` escape. -/
theorem custom_prompt_round_trip_witness :
    pySplitWs "foo bar baz" ≠ [] ∧
    load_custom_prompt
      (fsWrite [] (mdParts "foo bar baz") (expand_newline_escapes "hello\\nworld"))
      "foo bar baz" = some (expand_newline_escapes "hello\\nworld") ∧
    mdParts "foo bar baz" = ["foo", "bar", "baz.md"] :=
  ⟨by decide,
    (custom_prompt_round_trip [] "foo bar baz" "hello\\nworld" (by decide)).2.1,
    (custom_prompt_round_trip [] "foo bar baz" "hello\\nworld" (by decide)).2.2⟩

/-- C9: a command with the `echo` namespace returns `rest` verbatim under
    every document-store state and every YAML behaviour — the result is
    identical across any two stores, so the presence or content of a
    custom document named `echo` cannot change it. -/
theorem echo_precedence_store_independent (yl yl' : YamlFn) (st st' : Store)
    (rest : String) :
    execute_command yl st ⟨"echo", rest⟩ = rest ∧
    execute_command yl st ⟨"echo", rest⟩ = execute_command yl' st' ⟨"echo", rest⟩ := by
  have h : ∀ (y : YamlFn) (s : Store), execute_command y s ⟨"echo", rest⟩ = rest := by
    intro y s
    by_cases hr : rest = "" <;>
      simp [execute_command, handle_echo, formatResult, hr]
  exact ⟨h yl st, (h yl st).trans (h yl' st').symm⟩

/-- C10: for a namespace that is none of the built-in handler names, a
    `rest` whose first whitespace token is `help` or whose trimmed form
    starts with `--help` makes dispatch return the namespaced help listing
    (merged subcommand list or the no-subprompts message), never the
    standard-prompt fallback — with no assumption that the namespace
    resolves anywhere. -/
theorem namespaced_help_precedence (yl : YamlFn) (st : Store) (ns rest : String)
    (h1 : ns ≠ "echo") (h2 : ns ≠ "prompt") (h3 : ns ≠ "help")
    (hh : (pySplitWs (pyStrip rest)).headD "" = "help" ∨
          hasPre (pyStrip rest).data ("--help".data) = true) :
    execute_command yl st ⟨ns, rest⟩ =
      "## $$" ++ ns ++ " --help\n\n" ++ namespaced_help_content st ns := by
  have hir : is_help_request rest = true := by
    unfold is_help_request
    rcases hh with h | h
    · by_cases hr : pyStrip rest = ""
      · rw [hr] at h; exact absurd h (by decide)
      · simp only [hr, if_false, Bool.or_eq_true, beq_iff_eq]
        left; exact h
    · simp [h]
  simp [execute_command, handle_echo, handle_prompt, handle_help_command, handle_help,
    formatResult, h1, h2, h3, hir]

/-- C10 (witness): `$$xyz help` on the empty store produces the
    no-subprompts help message, not the undefined-command fallback. -/
theorem namespaced_help_precedence_witness :
    execute_command ylEmpty stEmpty ⟨"xyz", "help"⟩ =
      "## $$xyz --help\n\nNo subprompts available for 'xyz'." :=
  (namespaced_help_precedence ylEmpty stEmpty "xyz" "help"
    (by decide) (by decide) (by decide) (Or.inl (by decide))).trans (by decide)

/-- C2 (counterexample): on the empty store, `$$xyz` has an empty walker
    chain and dispatch produces the undefined-command message — but that
    message suggests `$$prompt xyz Your instruction here` and contains no
    occurrence of the `" -- "` separator the prompt-management handler
    requires for creation, refuting the claim that the suggested syntax
    uses that separator. -/
theorem dispatch_unknown_suggestion_counterexample :
    (load_prompt_chain ylEmpty stEmpty ["xyz"]).1 = [] ∧
    execute_command ylEmpty stEmpty ⟨"xyz", ""⟩ =
      "## $$xyz\n\n**Error:** The `$$xyz` command isn't defined.\n\nTo create it:\n```\n$$prompt xyz Your instruction here\n```" ∧
    hasSub (execute_command ylEmpty stEmpty ⟨"xyz", ""⟩).data (" -- ".data) = false := by
  decide

/-- C2 (amended): for a namespace that matches no built-in handler and a
    `rest` that does not trigger the namespaced-help handler, an empty
    walker chain makes dispatch return the error message naming the
    unresolved command and suggesting
    `$$prompt <namespace> Your instruction here` (without the `" -- "`
    separator). -/
theorem dispatch_unknown_command_error (yl : YamlFn) (st : Store) (ns rest : String)
    (h1 : ns ≠ "echo") (h2 : ns ≠ "prompt") (h3 : ns ≠ "help")
    (hh : is_help_request rest = false)
    (hchain : (load_prompt_chain yl st
        (ns :: (if rest = "" then [] else pySplitWs rest))).1 = []) :
    execute_command yl st ⟨ns, rest⟩ = undefined_command_msg ns := by
  simp [execute_command, handle_echo, handle_prompt, handle_help_command, handle_help,
    handle_standard_prompt, formatResult, h1, h2, h3, hh, hchain]

/-- C2 (witness): `$$xyz` on the empty store yields the undefined-command
    error message. -/
theorem dispatch_unknown_command_error_witness :
    is_help_request "" = false ∧
    (load_prompt_chain ylEmpty stEmpty ["xyz"]).1 = [] ∧
    execute_command ylEmpty stEmpty ⟨"xyz", ""⟩ = undefined_command_msg "xyz" :=
  ⟨by decide, by decide,
    dispatch_unknown_command_error ylEmpty stEmpty "xyz" ""
      (by decide) (by decide) (by decide) (by decide) (by decide)⟩

end Pal
